import Mathlib

/-!
# poly-core: verification of the order-construction and session-orchestration engine

Shallow embedding of the TypeScript sources of `poly-core` (`src/kit.ts`,
`src/clob-errors.ts` as found alongside `src/usdc.ts`, `src/types.ts`).

Modelling conventions:
* JavaScript numbers are modelled as exact rationals (`ℚ`); `Math.floor`,
  `Math.ceil` are the exact integer floor/ceiling, and `Math.round x` is
  `⌊x + 1/2⌋` (JavaScript rounds halves towards `+∞`).
* A possibly-`undefined`/`null` JS value is an `Option`; JS truthiness of
  strings/numbers is made explicit (`truthyStr`, `truthyNum`, ...).
* `async` collaborator calls are oracle functions returning
  `Except JsErr α`; a thrown exception is the `.error` case.  Each operation
  additionally returns the list of collaborator calls it performed, in order.
* JS string operations are modelled structurally on the character list
  (`jsToLower`, `jsTrim`, `containsSubstr`), restricted to the ASCII
  messages that actually occur.
* The `raw` diagnostic field of `CreateOrderResult` is omitted from the
  model; no claim concerns it.
-/

namespace PolyCore

/-- JS truthiness of an optional string: present and non-empty. -/
def truthyStr : Option String → Bool
  | none => false
  | some s => !(s == "")

/-- JS truthiness of an optional number: present and non-zero. -/
def truthyNum : Option Nat → Bool
  | none => false
  | some n => !(n == 0)

/-- JS nullish coalescing `a ?? b` on optional values. -/
def jsCoalesce {α : Type} (a b : Option α) : Option α :=
  match a with
  | some x => some x
  | none => b

/-- JS `a || b` on optional strings: `a` when truthy, else `b`. -/
def jsOrStr (a b : Option String) : Option String :=
  if truthyStr a then a else b

/-- JS `Math.round`: round to the nearest integer, halves towards `+∞`. -/
def jsRound (q : ℚ) : ℤ := Int.floor (q + 1/2)

/-- JS `String.prototype.toLowerCase` (ASCII fragment), structurally on chars. -/
def jsToLower (s : String) : String := String.mk (s.data.map Char.toLower)

/-- JS `String.prototype.trim` (strip leading/trailing whitespace). -/
def jsTrim (s : String) : String :=
  String.mk (((s.data.dropWhile Char.isWhitespace).reverse.dropWhile
      Char.isWhitespace).reverse)

/-- `needle` occurs at the head of the list. -/
def isPfx : List Char → List Char → Bool
  | [], _ => true
  | _ :: _, [] => false
  | a :: as, b :: bs => a == b && isPfx as bs

/-- `needle` occurs somewhere in `hay`. -/
def hasSub (needle : List Char) : List Char → Bool
  | [] => isPfx needle []
  | c :: rest => isPfx needle (c :: rest) || hasSub needle rest

/-- JS `String.prototype.includes`. -/
def containsSubstr (hay needle : String) : Bool := hasSub needle.data hay.data

/-! ## Tick sizes and tick alignment (`src/kit.ts`, `getTickDecimals` /
`alignPriceToTick`) -/

/-- The `TickSize` union type of `src/types.ts`: `"0.1" | "0.01" | "0.001" | "0.0001"`. -/
inductive TickSize where
  | tenth
  | hundredth
  | thousandth
  | tenThousandth
deriving DecidableEq

/-- The string literal a `TickSize` value is. -/
def TickSize.lit : TickSize → String
  | .tenth => "0.1"
  | .hundredth => "0.01"
  | .thousandth => "0.001"
  | .tenThousandth => "0.0001"

/-- JS `Number(tick)` on the four tick literals, as an exact rational. -/
def TickSize.toRat : TickSize → ℚ
  | .tenth => 1/10
  | .hundredth => 1/100
  | .thousandth => 1/1000
  | .tenThousandth => 1/10000

/-- JS `String.prototype.indexOf` for a single character (`-1` when absent). -/
def strIndexOf : List Char → Char → Int
  | [], _ => -1
  | a :: rest, c =>
    if a == c then 0
    else
      let r := strIndexOf rest c
      if r < 0 then -1 else r + 1

/-- `getTickDecimals` from `src/kit.ts`: digits after the `"."` of the literal. -/
def getTickDecimals (tick : String) : Nat :=
  let idx := strIndexOf tick.data '.'
  if idx < 0 then 0 else tick.length - idx.toNat - 1

/-- The `TickRoundingMode` union type: `"nearest" | "down" | "up"`. -/
inductive Rounding where
  | nearest
  | down
  | up
deriving DecidableEq

/-- `alignPriceToTick` from `src/kit.ts`: scale price and tick to integers at
the tick's decimal precision, round the steps quotient per policy, descale. -/
def alignPriceToTick (price : ℚ) (tick : TickSize) (rounding : Rounding) : ℚ :=
  let decimals := getTickDecimals tick.lit
  let scale : ℚ := (10 : ℚ) ^ decimals
  let priceInt : ℤ := jsRound (price * scale)
  let tickInt : ℤ := jsRound (tick.toRat * scale)
  if tickInt ≤ 0 then price
  else
    let ratio : ℚ := (priceInt : ℚ) / (tickInt : ℚ)
    let steps : ℤ :=
      match rounding with
      | .down => Int.floor ratio
      | .up => Int.ceil ratio
      | .nearest => jsRound ratio
    ((steps * tickInt : ℤ) : ℚ) / scale

/-! ## Error classification (`mapClobErrorMsgToCode`, `src/clob-errors.ts`) -/

/-- The `ClobInsertErrorCode` union type of `src/types.ts`. -/
inductive ClobErrorCode where
  | INVALID_ORDER_MIN_TICK_SIZE
  | INVALID_ORDER_MIN_SIZE
  | INVALID_ORDER_DUPLICATED
  | INVALID_ORDER_NOT_ENOUGH_BALANCE
  | INVALID_ORDER_EXPIRATION
  | INVALID_ORDER_ERROR
  | EXECUTION_ERROR
  | ORDER_DELAYED
  | DELAYING_ORDER_ERROR
  | FOK_ORDER_NOT_FILLED_ERROR
  | MARKET_NOT_READY
  | HTTP_ERROR
  | UNKNOWN
deriving DecidableEq

/-- `mapClobErrorMsgToCode`: lower-case the trimmed message and match it
against the ordered list of known substrings, first match winning; absent or
empty (falsy) messages are not classified at all. -/
def mapClobErrorMsgToCode (errorMsg : Option String) : Option ClobErrorCode :=
  match errorMsg with
  | none => none
  | some s =>
    if s == "" then none
    else
      let msg := jsToLower (jsTrim s)
      if containsSubstr msg "price breaks minimum tick size" then
        some .INVALID_ORDER_MIN_TICK_SIZE
      else if containsSubstr msg "size lower than the minimum" then
        some .INVALID_ORDER_MIN_SIZE
      else if containsSubstr msg "duplicated" then
        some .INVALID_ORDER_DUPLICATED
      else if containsSubstr msg "not enough balance" || containsSubstr msg "allowance" then
        some .INVALID_ORDER_NOT_ENOUGH_BALANCE
      else if containsSubstr msg "invalid expiration" then
        some .INVALID_ORDER_EXPIRATION
      else if containsSubstr msg "could not insert order" then
        some .INVALID_ORDER_ERROR
      else if containsSubstr msg "could not run the execution" then
        some .EXECUTION_ERROR
      else if containsSubstr msg "order match delayed" then
        some .ORDER_DELAYED
      else if containsSubstr msg "error delaying" then
        some .DELAYING_ORDER_ERROR
      else if containsSubstr msg "fok orders" || containsSubstr msg "not fully filled" then
        some .FOK_ORDER_NOT_FILLED_ERROR
      else if containsSubstr msg "market is not yet ready" then
        some .MARKET_NOT_READY
      else some .UNKNOWN

/-! ## Raw responses and normalization (`normalizeOrderResponse`, `src/kit.ts`) -/

/-- A thrown JS exception, as observed by the catch blocks of `src/kit.ts`:
`err?.response?.status`, `err?.response?.data?.errorMsg` / `.error`, and
`err?.message`. -/
structure JsErr where
  httpStatus : Option Nat := none
  dataErrorMsg : Option String := none
  dataError : Option String := none
  message : Option String := none
deriving DecidableEq

/-- The duck-typed raw order-submission response read by
`normalizeOrderResponse` (all fields optional). -/
structure RawResponse where
  success : Option Bool := none
  orderID : Option String := none
  orderId : Option String := none
  errorMsg : Option String := none
  error : Option String := none
  status : Option String := none
  transactionsHashes : Option (List String) := none
  transactionHashes : Option (List String) := none
  orderHashes : Option (List String) := none
deriving DecidableEq

/-- `CreateOrderResult` of `src/types.ts` (without the `raw` diagnostic field). -/
structure CreateOrderResult where
  success : Bool
  orderId : Option String := none
  status : Option String := none
  errorCode : Option ClobErrorCode := none
  errorMsg : Option String := none
  transactionHashes : Option (List String) := none
deriving DecidableEq

/-- `Boolean(res?.success ?? (res?.orderID || res?.orderId))`. -/
def rawSuccessB (res : RawResponse) : Bool :=
  match res.success with
  | some b => b
  | none => truthyStr res.orderID || truthyStr res.orderId

/-- `normalizeOrderResponse` from `src/kit.ts`. -/
def normalizeOrderResponse (res : RawResponse) : CreateOrderResult :=
  let errorMsg := jsCoalesce res.errorMsg res.error
  let orderId := jsCoalesce res.orderID res.orderId
  let txHashes :=
    jsCoalesce (jsCoalesce res.transactionsHashes res.transactionHashes) res.orderHashes
  { success := rawSuccessB res && !truthyStr errorMsg
  , orderId := if truthyStr orderId then orderId else none
  , status := if truthyStr res.status then res.status else none
  , errorCode := if truthyStr errorMsg then mapClobErrorMsgToCode errorMsg else none
  , errorMsg := if truthyStr errorMsg then errorMsg else none
  , transactionHashes := txHashes }

/-- The shared post-submission handling of `createLimitOrder` /
`createMarketOrder`: normalize, then demote a success without an order id to
an `UNKNOWN` failure. -/
def finalizeOrderResult (res : RawResponse) : CreateOrderResult :=
  let normalized := normalizeOrderResponse res
  if !normalized.success then normalized
  else if normalized.orderId.isNone then
    { success := false
    , errorCode := some .UNKNOWN
    , errorMsg := some "Order submission failed" }
  else normalized

/-- The shared catch-block conversion of submission-time exceptions. -/
def catchToResult (e : JsErr) : CreateOrderResult :=
  let errorMsg :=
    (jsCoalesce (jsCoalesce e.dataErrorMsg e.dataError) e.message).getD "Request failed"
  { success := false
  , errorCode := some (if truthyNum e.httpStatus then .HTTP_ERROR else .UNKNOWN)
  , errorMsg := some errorMsg }

/-! ## Token metadata cache (`resolveTokenMeta`, `src/kit.ts`) -/

/-- `DEFAULT_META_CACHE_TTL_MS = 60_000`. -/
def metaCacheTTL : Int := 60000

/-- A cached `TokenMeta` entry. -/
structure TokenMeta where
  tickSize : TickSize
  negRisk : Bool
  fetchedAtMs : Int
deriving DecidableEq

/-- The `tokenMetaCache` JS `Map`, modelled as an association list. -/
def MetaCache : Type := List (String × TokenMeta)

/-- `Map.prototype.get`. -/
def cacheGet (c : MetaCache) (k : String) : Option TokenMeta :=
  match c with
  | [] => none
  | (k2, v) :: rest => if k2 == k then some v else cacheGet rest k

/-- `Map.prototype.set`. -/
def cacheSet (c : MetaCache) (k : String) (v : TokenMeta) : MetaCache :=
  match c with
  | [] => [(k, v)]
  | (k2, v2) :: rest => if k2 == k then (k, v) :: rest else (k2, v2) :: cacheSet rest k v

/-- The `OrderSide` union type: `"BUY" | "SELL"`. -/
inductive Side where
  | BUY
  | SELL
deriving DecidableEq

/-- The `OrderMetaMode` union type: `"auto" | "manual"`. -/
inductive MetaMode where
  | auto
  | manual
deriving DecidableEq

/-- The orderbook summary read from `getOrderBook`: `ob?.tick_size`,
`ob?.neg_risk` (a `null` orderbook is both fields absent). -/
structure OrderBook where
  tick_size : Option TickSize := none
  neg_risk : Option Bool := none
deriving DecidableEq

/-- The `{ tickSize?, negRisk? }` result of `resolveTokenMeta`. -/
structure MetaOut where
  tickSize : Option TickSize := none
  negRisk : Option Bool := none
deriving DecidableEq

/-- The parameter object of `resolveTokenMeta` (`clobClient` passed separately). -/
structure MetaParams where
  tokenId : String
  mode : MetaMode
  tickSizeOverride : Option TickSize := none
  negRiskOverride : Option Bool := none
  needTickSize : Bool
  needNegRisk : Bool
deriving DecidableEq

/-- `getPrice` result after `parseFloat`: `none` models `NaN`. -/
structure GetPriceResult where
  price : Option ℚ
deriving DecidableEq

/-- The order object assembled by `createLimitOrder` and passed to
`createAndPostOrder`. -/
structure PostedOrder where
  tokenID : String
  price : ℚ
  size : ℚ
  side : Side
  feeRateBps : Nat
  expiration : Int
  taker : String
deriving DecidableEq

/-- The order object assembled by `createMarketOrder`. -/
structure PostedMarketOrder where
  tokenID : String
  amount : ℚ
  side : Side
  price : Option ℚ := none
deriving DecidableEq

/-- The `OrderTimeInForce` union type / `OrderType.GTC`/`GTD`. -/
inductive LimitOrderType where
  | GTC
  | GTD
deriving DecidableEq

/-- The `MarketOrderType` union type: `"FOK" | "FAK"`. -/
inductive MarketOrderType where
  | FOK
  | FAK
deriving DecidableEq

/-- The network collaborator (CLOB client), as pure oracles: each method
either returns a value or throws. -/
structure ClobClient where
  getOrderBook : String → Except JsErr OrderBook
  getPrice : String → Side → Except JsErr GetPriceResult
  createAndPostOrder :
    PostedOrder → Option Bool → LimitOrderType → Bool → Except JsErr RawResponse
  createAndPostMarketOrder :
    PostedMarketOrder → Option Bool → MarketOrderType → Bool → Except JsErr RawResponse

/-- One collaborator call, recorded in order of occurrence. -/
inductive CollabCall where
  | getOrderBook (tokenId : String)
  | getPrice (tokenId : String) (side : Side)
  | postOrder (order : PostedOrder) (negRisk : Option Bool)
      (orderType : LimitOrderType) (deferExec : Bool)
  | postMarketOrder (order : PostedMarketOrder) (negRisk : Option Bool)
      (orderType : MarketOrderType) (deferExec : Bool)
deriving DecidableEq

/-- `hasTick` of `resolveTokenMeta`: the caller already covers the tick need. -/
def hasTickFromOverride (p : MetaParams) : Bool :=
  !p.needTickSize || p.tickSizeOverride.isSome

/-- `hasNeg` of `resolveTokenMeta`: the caller already covers the negRisk need. -/
def hasNegFromOverride (p : MetaParams) : Bool :=
  !p.needNegRisk || p.negRiskOverride.isSome

/-- The overrides-only result object (built both by manual mode and by the
no-lookup-needed branch). -/
def overridesOut (p : MetaParams) : MetaOut :=
  { tickSize := p.tickSizeOverride, negRisk := p.negRiskOverride }

/-- The fetch path of `resolveTokenMeta`: one `getOrderBook` call, fetched
values coalesced with the overrides as fallback, cache written only when both
fields were obtained. -/
def resolveTokenMetaFetch (client : ClobClient) (cache : MetaCache) (now : Int)
    (p : MetaParams) : List CollabCall × Except JsErr (MetaOut × MetaCache) :=
  ([CollabCall.getOrderBook p.tokenId],
    match client.getOrderBook p.tokenId with
    | .error e => .error e
    | .ok ob =>
      let tickSize := jsCoalesce ob.tick_size p.tickSizeOverride
      let negRisk := jsCoalesce ob.neg_risk p.negRiskOverride
      let cache2 :=
        match tickSize, negRisk with
        | some t, some n =>
          cacheSet cache p.tokenId { tickSize := t, negRisk := n, fetchedAtMs := now }
        | _, _ => cache
      .ok ({ tickSize := tickSize, negRisk := negRisk }, cache2))

/-- `resolveTokenMeta` from `src/kit.ts`, with `Date.now()` passed in as `now`
and the cache threaded explicitly. -/
def resolveTokenMeta (client : ClobClient) (cache : MetaCache) (now : Int)
    (p : MetaParams) : List CollabCall × Except JsErr (MetaOut × MetaCache) :=
  match p.mode with
  | .manual => ([], .ok (overridesOut p, cache))
  | .auto =>
    if hasTickFromOverride p && hasNegFromOverride p then
      ([], .ok (overridesOut p, cache))
    else
      match cacheGet cache p.tokenId with
      | some cached =>
        if now - cached.fetchedAtMs ≤ metaCacheTTL then
          ([], .ok
            ({ tickSize := jsCoalesce p.tickSizeOverride (some cached.tickSize)
             , negRisk := jsCoalesce p.negRiskOverride (some cached.negRisk) }, cache))
        else resolveTokenMetaFetch client cache now p
      | none => resolveTokenMetaFetch client cache now p

/-! ## Order construction (`createLimitOrder` / `createMarketOrder`, `src/kit.ts`) -/

/-- The `TickSizeMode` union type: `"none" | "validate" | "round"`. -/
inductive TickSizeMode where
  | noCheck
  | validate
  | round
deriving DecidableEq

/-- The `"validate"` tolerance `1e-12`, exact in the rational model. -/
def tickEpsilon : ℚ := 1 / 10 ^ 12

/-- `CreateLimitOrderRequest` of `src/types.ts`. -/
structure CreateLimitOrderRequest where
  tokenId : String
  size : ℚ
  price : Option ℚ := none
  side : Side
  mode : Option MetaMode := none
  negRisk : Option Bool := none
  isMarketOrder : Option Bool := none
  timeInForce : Option LimitOrderType := none
  expirationUnixSeconds : Option Int := none
  deferExec : Option Bool := none
  tickSizeMode : Option TickSizeMode := none
  tickRounding : Option Rounding := none
  tickSize : Option TickSize := none
deriving DecidableEq

/-- `CreateMarketOrderRequest` of `src/types.ts`. -/
structure CreateMarketOrderRequest where
  tokenId : String
  side : Side
  mode : Option MetaMode := none
  negRisk : Option Bool := none
  amountUsdc : Option ℚ := none
  amountShares : Option ℚ := none
  price : Option ℚ := none
  orderType : Option MarketOrderType := none
  deferExec : Option Bool := none
  tickSizeMode : Option TickSizeMode := none
  tickRounding : Option Rounding := none
  tickSize : Option TickSize := none
deriving DecidableEq

/-- The outcome of one order-submission API call: the collaborator calls made,
the returned result or the uncaught thrown exception, and the cache afterwards. -/
structure OrderRun where
  calls : List CollabCall
  result : Except JsErr CreateOrderResult
  cache : MetaCache

/-- The `metaArgs` object built by `createLimitOrder`. -/
def limitMetaParams (req : CreateLimitOrderRequest) : MetaParams :=
  let tickSizeMode := req.tickSizeMode.getD .noCheck
  { tokenId := req.tokenId
  , mode := req.mode.getD .auto
  , tickSizeOverride := req.tickSize
  , negRiskOverride := req.negRisk
  , needTickSize := !(tickSizeMode == TickSizeMode.noCheck)
  , needNegRisk := req.negRisk.isNone }

/-- The `metaArgs` object built by `createMarketOrder` (tick size needed only
when a price was supplied). -/
def marketMetaParams (req : CreateMarketOrderRequest) : MetaParams :=
  let tickSizeMode := req.tickSizeMode.getD .noCheck
  { tokenId := req.tokenId
  , mode := req.mode.getD .auto
  , tickSizeOverride := req.tickSize
  , negRiskOverride := req.negRisk
  , needTickSize := !(tickSizeMode == TickSizeMode.noCheck) && req.price.isSome
  , needNegRisk := req.negRisk.isNone }

/-- The `applyTick` closure of `createLimitOrder` (the identical inline block
of `createMarketOrder` reuses this): missing tick size and a `validate`-mode
violation are early structured failures. -/
def applyTick (tickSizeMode : TickSizeMode) (tickRounding : Rounding)
    (metaTick reqTick : Option TickSize) (price : ℚ) : Except CreateOrderResult ℚ :=
  match tickSizeMode with
  | .noCheck => .ok price
  | _ =>
    match jsCoalesce metaTick reqTick with
    | none =>
      .error { success := false
             , errorCode := some .INVALID_ORDER_MIN_TICK_SIZE
             , errorMsg := some "Missing tick size for token" }
    | some tick =>
      let aligned := alignPriceToTick price tick tickRounding
      if tickSizeMode = TickSizeMode.validate ∧ tickEpsilon < |aligned - price| then
        .error { success := false
               , errorCode := some .INVALID_ORDER_MIN_TICK_SIZE
               , errorMsg := some "Price breaks minimum tick size rules" }
      else .ok aligned

/-- The aggressive-price computation of the `isMarketOrder` branch: any
`getPrice` failure or out-of-range price falls back to the fixed extreme. -/
def fallbackExtreme : Side → ℚ
  | .BUY => 99/100
  | .SELL => 1/100

/-- `marketPrice` handling of the `isMarketOrder` branch of `createLimitOrder`. -/
def aggressivePrice (client : ClobClient) (tokenId : String) (side : Side) : ℚ :=
  match client.getPrice tokenId side with
  | .error _ => fallbackExtreme side
  | .ok pr =>
    match pr.price with
    | none => fallbackExtreme side
    | some mp =>
      if mp ≤ 0 ∨ 1 ≤ mp then fallbackExtreme side
      else
        match side with
        | .BUY => min (99/100) (mp * (105/100))
        | .SELL => max (1/100) (mp * (95/100))

/-- JS truthiness of `req.expirationUnixSeconds` negated:
`!req.expirationUnixSeconds` (absent or zero). -/
def falsyExpiration : Option Int → Bool
  | none => true
  | some e => e == 0

/-- The shared submit-and-normalize tail: one post call, exceptions caught and
converted by the catch block. -/
def submitLimit (client : ClobClient) (order : PostedOrder) (options : Option Bool)
    (orderType : LimitOrderType) (deferExec : Bool) : Except JsErr CreateOrderResult :=
  match client.createAndPostOrder order options orderType deferExec with
  | .ok res => .ok (finalizeOrderResult res)
  | .error err => .ok (catchToResult err)

/-- `createLimitOrder` from `src/kit.ts`, with cache, clock and collaborators
made explicit.  Note the metadata resolution is awaited before the GTD
expiration check, and its exceptions are not caught. -/
def createLimitOrder (client : ClobClient) (cache : MetaCache) (now : Int)
    (req : CreateLimitOrderRequest) : OrderRun :=
  let timeInForce := req.timeInForce.getD .GTC
  let orderType := timeInForce
  let deferExec := req.deferExec.getD false
  let tickSizeMode := req.tickSizeMode.getD .noCheck
  let tickRounding := req.tickRounding.getD .nearest
  match resolveTokenMeta client cache now (limitMetaParams req) with
  | (metaCalls, .error e) => { calls := metaCalls, result := .error e, cache := cache }
  | (metaCalls, .ok (meta, cache2)) =>
    let options := jsCoalesce req.negRisk meta.negRisk
    if orderType = LimitOrderType.GTD ∧ falsyExpiration req.expirationUnixSeconds then
      { calls := metaCalls
      , result := .ok { success := false
                      , errorCode := some .INVALID_ORDER_EXPIRATION
                      , errorMsg := some "invalid expiration" }
      , cache := cache2 }
    else if req.isMarketOrder.getD false then
      let ap := aggressivePrice client req.tokenId req.side
      let calls1 := metaCalls ++ [CollabCall.getPrice req.tokenId req.side]
      match applyTick tickSizeMode tickRounding meta.tickSize req.tickSize ap with
      | .error r => { calls := calls1, result := .ok r, cache := cache2 }
      | .ok aligned =>
        let order : PostedOrder :=
          { tokenID := req.tokenId
          , price := aligned
          , size := req.size
          , side := req.side
          , feeRateBps := 0
          , expiration :=
              if orderType = LimitOrderType.GTD then req.expirationUnixSeconds.getD 0 else 0
          , taker := "0x0000000000000000000000000000000000000000" }
        { calls := calls1 ++ [CollabCall.postOrder order options orderType deferExec]
        , result := submitLimit client order options orderType deferExec
        , cache := cache2 }
    else
      match req.price with
      | none =>
        { calls := metaCalls
        , result := .ok { success := false
                        , errorCode := some .INVALID_ORDER_ERROR
                        , errorMsg := some "price is required for limit orders" }
        , cache := cache2 }
      | some p =>
        match applyTick tickSizeMode tickRounding meta.tickSize req.tickSize p with
        | .error r => { calls := metaCalls, result := .ok r, cache := cache2 }
        | .ok aligned =>
          let order : PostedOrder :=
            { tokenID := req.tokenId
            , price := aligned
            , size := req.size
            , side := req.side
            , feeRateBps := 0
            , expiration :=
                if orderType = LimitOrderType.GTD then req.expirationUnixSeconds.getD 0 else 0
            , taker := "0x0000000000000000000000000000000000000000" }
          { calls := metaCalls ++ [CollabCall.postOrder order options orderType deferExec]
          , result := submitLimit client order options orderType deferExec
          , cache := cache2 }

/-- The side-dependent required amount field of a market order:
`req.side === "BUY" ? req.amountUsdc : req.amountShares`. -/
def marketAmount (req : CreateMarketOrderRequest) : Option ℚ :=
  match req.side with
  | .BUY => req.amountUsdc
  | .SELL => req.amountShares

/-- `amount === undefined || amount <= 0`. -/
def marketAmountBad (req : CreateMarketOrderRequest) : Bool :=
  match marketAmount req with
  | none => true
  | some a => a ≤ 0

/-- `createMarketOrder` from `src/kit.ts`. -/
def createMarketOrder (client : ClobClient) (cache : MetaCache) (now : Int)
    (req : CreateMarketOrderRequest) : OrderRun :=
  let deferExec := req.deferExec.getD false
  let orderType := req.orderType.getD .FOK
  let tickSizeMode := req.tickSizeMode.getD .noCheck
  let tickRounding := req.tickRounding.getD .nearest
  match resolveTokenMeta client cache now (marketMetaParams req) with
  | (metaCalls, .error e) => { calls := metaCalls, result := .error e, cache := cache }
  | (metaCalls, .ok (meta, cache2)) =>
    let options := jsCoalesce req.negRisk meta.negRisk
    let priced : Except CreateOrderResult (Option ℚ) :=
      match req.price with
      | none => .ok none
      | some p =>
        match applyTick tickSizeMode tickRounding meta.tickSize req.tickSize p with
        | .error r => .error r
        | .ok aligned => .ok (some aligned)
    match priced with
    | .error r => { calls := metaCalls, result := .ok r, cache := cache2 }
    | .ok priceOpt =>
      let amount := marketAmount req
      if marketAmountBad req then
        { calls := metaCalls
        , result := .ok
            { success := false
            , errorCode := some .INVALID_ORDER_ERROR
            , errorMsg := some (match req.side with
                | .BUY => "amountUsdc is required for BUY market orders"
                | .SELL => "amountShares is required for SELL market orders") }
        , cache := cache2 }
      else
        let order : PostedMarketOrder :=
          { tokenID := req.tokenId
          , amount := amount.getD 0
          , side := req.side
          , price := priceOpt }
        { calls := metaCalls ++ [CollabCall.postMarketOrder order options orderType deferExec]
        , result :=
            match client.createAndPostMarketOrder order options orderType deferExec with
            | .ok res => .ok (finalizeOrderResult res)
            | .error err => .ok (catchToResult err)
        , cache := cache2 }

/-! ## Session orchestration (`initializeTradingSession`, `ensureApprovals`,
`deploySafe`, `getOrCreateUserApiCredentials`, `src/kit.ts`) -/

/-- `ApprovalStatus` of `src/types.ts` (records as association lists). -/
structure ApprovalStatus where
  allApproved : Bool
  usdcApprovals : List (String × Bool) := []
  outcomeTokenApprovals : List (String × Bool) := []
deriving DecidableEq

/-- `ApiCredentials` of `src/types.ts`. -/
structure ApiCredentials where
  key : String
  secret : String
  passphrase : String
deriving DecidableEq

/-- The duck-typed result of `deriveApiKey` (fields checked for truthiness). -/
structure DerivedCreds where
  key : Option String := none
  secret : Option String := none
  passphrase : Option String := none
deriving DecidableEq

/-- `TradingSession` of `src/types.ts`. -/
structure TradingSession where
  eoaAddress : String
  safeAddress : String
  apiCredentials : ApiCredentials
  approvals : ApprovalStatus
deriving DecidableEq

/-- The collaborators consumed by the session bootstrap, as oracles.
`checkApprovalsResult` is indexed by how many approval checks happened before,
so successive checks may observe different on-chain states. -/
structure SessionEnv where
  derivedSafeAddress : String
  isSafeDeployedResult : Except JsErr Bool
  deployResult : Except JsErr (Option String)
  deriveApiKeyResult : Except JsErr DerivedCreds
  createApiKeyResult : Except JsErr ApiCredentials
  checkApprovalsResult : Nat → ApprovalStatus
  executeApprovalsResult : Except JsErr Unit

/-- One collaborator call of the session bootstrap. -/
inductive SessionCall where
  | isSafeDeployed
  | deploy
  | deriveApiKey
  | createApiKey
  | checkApprovals
  | executeApprovals
deriving DecidableEq

/-- `TradingSessionStep` of `src/types.ts` (progress notifications). -/
inductive SessionStep where
  | init_relay_client
  | derive_safe
  | check_safe_deployed
  | deploy_safe
  | get_api_credentials
  | check_approvals
  | set_approvals
  | complete
deriving DecidableEq

/-- The outcome of one bootstrap run: progress steps emitted, collaborator
calls made, and the session or the thrown error. -/
structure SessionRun where
  steps : List SessionStep
  calls : List SessionCall
  result : Except JsErr TradingSession

/-- `new Error(message)`. -/
def mkError (m : String) : JsErr := { message := some m }

/-- `deploySafe` from `src/kit.ts`: relay deploy plus the
`"Safe deployment failed"` guard on a falsy `proxyAddress`. -/
def deploySafe (env : SessionEnv) : Except JsErr String :=
  match env.deployResult with
  | .error e => .error e
  | .ok proxy =>
    if truthyStr proxy then .ok (proxy.getD "")
    else .error (mkError "Safe deployment failed")

/-- `getOrCreateUserApiCredentials` from `src/kit.ts`: try `deriveApiKey`
(errors swallowed to `null`), fall back to `createApiKey` unless all three
credential fields are truthy. -/
def getOrCreateUserApiCredentials (env : SessionEnv) :
    List SessionCall × Except JsErr ApiCredentials :=
  let derived : Option DerivedCreds :=
    match env.deriveApiKeyResult with
    | .error _ => none
    | .ok d => some d
  match derived with
  | some d =>
    if truthyStr d.key && truthyStr d.secret && truthyStr d.passphrase then
      ([.deriveApiKey],
        .ok { key := d.key.getD "", secret := d.secret.getD "", passphrase := d.passphrase.getD "" })
    else ([.deriveApiKey, .createApiKey], env.createApiKeyResult)
  | none => ([.deriveApiKey, .createApiKey], env.createApiKeyResult)

/-- `ensureApprovals` from `src/kit.ts`: check, batch-execute only when not
fully approved, re-check after.  `idx` is the index of its first approval
check in the run. -/
def ensureApprovals (env : SessionEnv) (idx : Nat) :
    List SessionCall × Except JsErr (Bool × ApprovalStatus) :=
  let approvals := env.checkApprovalsResult idx
  if approvals.allApproved then ([.checkApprovals], .ok (false, approvals))
  else
    match env.executeApprovalsResult with
    | .error e => ([.checkApprovals, .executeApprovals], .error e)
    | .ok _ =>
      ([.checkApprovals, .executeApprovals, .checkApprovals],
        .ok (true, env.checkApprovalsResult (idx + 1)))

/-- The tail of the bootstrap after the deployment phase: credentials,
initial approval check, conditional `ensureApprovals`, session record. -/
def sessionAfterDeploy (env : SessionEnv) (eoaAddress safeAddress : String)
    (steps : List SessionStep) (calls : List SessionCall) : SessionRun :=
  let steps1 := steps ++ [SessionStep.get_api_credentials]
  match getOrCreateUserApiCredentials env with
  | (cCalls, .error e) =>
    { steps := steps1, calls := calls ++ cCalls, result := .error e }
  | (cCalls, .ok creds) =>
    let steps2 := steps1 ++ [SessionStep.check_approvals]
    let calls2 := calls ++ cCalls ++ [SessionCall.checkApprovals]
    let approvalsBefore := env.checkApprovalsResult 0
    if approvalsBefore.allApproved then
      { steps := steps2 ++ [SessionStep.complete]
      , calls := calls2
      , result := .ok { eoaAddress := eoaAddress, safeAddress := safeAddress
                      , apiCredentials := creds, approvals := approvalsBefore } }
    else
      match ensureApprovals env 1 with
      | (eCalls, .error e) =>
        { steps := steps2 ++ [SessionStep.set_approvals]
        , calls := calls2 ++ eCalls
        , result := .error e }
      | (eCalls, .ok (_, approvals)) =>
        { steps := steps2 ++ [SessionStep.set_approvals, SessionStep.complete]
        , calls := calls2 ++ eCalls
        , result := .ok { eoaAddress := eoaAddress, safeAddress := safeAddress
                        , apiCredentials := creds, approvals := approvals } }

/-- `initializeTradingSession` from `src/kit.ts`: the linear bootstrap state
machine, with the deployment phase guarded by `autoDeploySafe` (default true
at the call boundary; passed resolved here). -/
def initializeTradingSession (env : SessionEnv) (eoaAddress : String)
    (autoDeploySafe : Bool) : SessionRun :=
  let steps0 := [SessionStep.init_relay_client, SessionStep.derive_safe,
    SessionStep.check_safe_deployed]
  let safeAddress := env.derivedSafeAddress
  match env.isSafeDeployedResult with
  | .error e => { steps := steps0, calls := [.isSafeDeployed], result := .error e }
  | .ok deployed =>
    if deployed then
      sessionAfterDeploy env eoaAddress safeAddress steps0 [.isSafeDeployed]
    else if !autoDeploySafe then
      { steps := steps0, calls := [.isSafeDeployed]
      , result := .error (mkError "Safe is not deployed") }
    else
      match deploySafe env with
      | .error e =>
        { steps := steps0 ++ [SessionStep.deploy_safe]
        , calls := [.isSafeDeployed, .deploy], result := .error e }
      | .ok _ =>
        sessionAfterDeploy env eoaAddress safeAddress
          (steps0 ++ [SessionStep.deploy_safe]) [.isSafeDeployed, .deploy]

/-! ## Concrete instances used by the claim theorems -/

/-- The decimal count of each tick literal. -/
def tickDecimals : TickSize → Nat
  | .tenth => 1
  | .hundredth => 2
  | .thousandth => 3
  | .tenThousandth => 4

/-- A collaborator whose orderbook lookup succeeds with tick `"0.01"` and
`neg_risk=false` and whose every other method throws. -/
def stubClient : ClobClient :=
  { getOrderBook := fun _ => .ok { tick_size := some .hundredth, neg_risk := some false }
  , getPrice := fun _ _ => .error {}
  , createAndPostOrder := fun _ _ _ _ => .error {}
  , createAndPostMarketOrder := fun _ _ _ _ => .error {} }

/-- A collaborator whose orderbook lookup reports tick `"0.1"` and
`neg_risk=true`. -/
def fetchClient : ClobClient :=
  { getOrderBook := fun _ => .ok { tick_size := some .tenth, neg_risk := some true }
  , getPrice := fun _ _ => .error {}
  , createAndPostOrder := fun _ _ _ _ => .error {}
  , createAndPostMarketOrder := fun _ _ _ _ => .error {} }

/-- A collaborator whose orderbook lookup omits the `neg_risk` field. -/
def partialObClient : ClobClient :=
  { getOrderBook := fun _ => .ok { tick_size := some .hundredth, neg_risk := none }
  , getPrice := fun _ _ => .error {}
  , createAndPostOrder := fun _ _ _ _ => .error {}
  , createAndPostMarketOrder := fun _ _ _ _ => .error {} }

/-- Auto-mode resolution needing both fields, with a tick-size override. -/
def overrideParams : MetaParams :=
  { tokenId := "tok", mode := .auto, tickSizeOverride := some .hundredth
  , needTickSize := true, needNegRisk := true }

/-- Auto-mode resolution needing both fields, with no overrides. -/
def needBothParams : MetaParams :=
  { tokenId := "tok", mode := .auto, needTickSize := true, needNegRisk := true }

/-- A cache holding a `"tok"` entry fetched at time `0`. -/
def cachedTok : MetaCache :=
  [("tok", { tickSize := TickSize.hundredth, negRisk := false, fetchedAtMs := 0 })]

/-- A GTD limit order request with no expiration, nothing else set. -/
def gtdReq : CreateLimitOrderRequest :=
  { tokenId := "tok", size := 1, side := .BUY, timeInForce := some .GTD }

/-- A collaborator whose orderbook lookup throws. -/
def throwingClient : ClobClient :=
  { getOrderBook := fun _ => .error (mkError "boom")
  , getPrice := fun _ _ => .error {}
  , createAndPostOrder := fun _ _ _ _ => .error {}
  , createAndPostMarketOrder := fun _ _ _ _ => .error {} }

/-- A plain explicit limit order request. -/
def plainLimitReq : CreateLimitOrderRequest :=
  { tokenId := "tok", size := 1, side := .BUY, price := some (1/2) }

/-- A plain BUY market order request. -/
def plainMarketReq : CreateMarketOrderRequest :=
  { tokenId := "tok", side := .BUY, amountUsdc := some 5 }

/-- A validate-mode BUY market request with tick-breaking price `0.127` and
no `amountUsdc`. -/
def validateMarketReq : CreateMarketOrderRequest :=
  { tokenId := "tok", side := .BUY, negRisk := some false, price := some (127/1000)
  , tickSizeMode := some .validate, tickSize := some .hundredth }

/-- A bootstrap environment with the Safe already deployed and everything
approved. -/
def sessionEnvDeployed : SessionEnv :=
  { derivedSafeAddress := "safe"
  , isSafeDeployedResult := .ok true
  , deployResult := .ok none
  , deriveApiKeyResult := .ok { key := some "k", secret := some "s", passphrase := some "p" }
  , createApiKeyResult := .ok { key := "k", secret := "s", passphrase := "p" }
  , checkApprovalsResult := fun _ => { allApproved := true }
  , executeApprovalsResult := .ok () }

/-- The same environment with the Safe not deployed. -/
def sessionEnvNotDeployed : SessionEnv :=
  { sessionEnvDeployed with isSafeDeployedResult := .ok false }

/-! ## Tick alignment lemmas -/

theorem getTickDecimals_lit (t : TickSize) : getTickDecimals t.lit = tickDecimals t := by
  cases t <;> decide

theorem jsRound_intCast (n : ℤ) : jsRound (n : ℚ) = n := by
  unfold jsRound
  rw [Int.floor_int_add]
  norm_num

/-- For every supported tick the scaled integer tick value is `1`. -/
theorem tickIntOne (t : TickSize) : jsRound (t.toRat * (10 : ℚ) ^ tickDecimals t) = 1 := by
  cases t <;> norm_num [jsRound, TickSize.toRat, tickDecimals, Int.floor_eq_iff]

/-- Closed form of `alignPriceToTick`: since the scaled tick is always `1`,
the steps quotient is already an integer and the rounding policy is
irrelevant — alignment is `Math.round` of the price at the tick's decimal
precision. -/
theorem alignPriceToTick_eq (p : ℚ) (t : TickSize) (r : Rounding) :
    alignPriceToTick p t r =
      ((jsRound (p * (10 : ℚ) ^ tickDecimals t) : ℤ) : ℚ) / (10 : ℚ) ^ tickDecimals t := by
  simp only [alignPriceToTick]
  rw [getTickDecimals_lit, tickIntOne]
  rw [if_neg (by norm_num : ¬ ((1:ℤ) ≤ 0))]
  cases r <;> simp [Int.floor_intCast, Int.ceil_intCast, jsRound_intCast]

/-- Claim C1 (counterexample): aligning `p = 0.127` to tick `"0.01"` with
rounding policy `"down"` does not return `0.12`.  The code first rounds the
scaled price `12.7` to the integer `13`, so flooring the steps quotient
afterwards cannot recover `0.12`. -/
theorem claim_C1_counterexample :
    alignPriceToTick (127/1000) TickSize.hundredth Rounding.down ≠ 12/100 := by
  rw [alignPriceToTick_eq]
  norm_num [jsRound, tickDecimals, Int.floor_eq_iff]

/-- Claim C1 (amended): with `p = 0.127` and tick `"0.01"`, policy `"nearest"`
returns `0.13`, policy `"down"` returns `0.13` (not `0.12`: the price is
pre-rounded to the tick's decimal precision before the quotient is floored),
policy `"up"` returns `0.13`, and the boundary `0.125` rounds to `0.13` under
`"nearest"`. -/
theorem claim_C1_amended :
    alignPriceToTick (127/1000) TickSize.hundredth Rounding.nearest = 13/100 ∧
    alignPriceToTick (127/1000) TickSize.hundredth Rounding.down = 13/100 ∧
    alignPriceToTick (127/1000) TickSize.hundredth Rounding.up = 13/100 ∧
    alignPriceToTick (125/1000) TickSize.hundredth Rounding.nearest = 13/100 := by
  refine ⟨?_, ?_, ?_, ?_⟩ <;>
    · rw [alignPriceToTick_eq]
      norm_num [jsRound, tickDecimals, Int.floor_eq_iff]

/-- Claim C7: for every price, every supported tick size and every rounding
policy, tick alignment is idempotent. -/
theorem claim_C7_align_idempotent (p : ℚ) (t : TickSize) (r : Rounding) :
    alignPriceToTick (alignPriceToTick p t r) t r = alignPriceToTick p t r := by
  rw [alignPriceToTick_eq, alignPriceToTick_eq]
  rw [div_mul_cancel₀ _ (pow_ne_zero _ (by norm_num : (10:ℚ) ≠ 0))]
  rw [jsRound_intCast]

/-! ## Error classification and response normalization: claims C8 and C5 -/

/-- Claim C8: classification lower-cases the message and matches it against
the ordered substring list with first match winning — `"Price breaks minimum
tick size"` maps to `INVALID_ORDER_MIN_TICK_SIZE`, the unmatched
`"server exploded"` maps to `UNKNOWN`, an absent message is not classified,
and a message hitting both the tick-size and the allowance patterns takes the
earlier (tick-size) code. -/
theorem claim_C8_classifier :
    mapClobErrorMsgToCode (some "Price breaks minimum tick size") =
      some ClobErrorCode.INVALID_ORDER_MIN_TICK_SIZE ∧
    mapClobErrorMsgToCode (some "server exploded") = some ClobErrorCode.UNKNOWN ∧
    mapClobErrorMsgToCode none = none ∧
    mapClobErrorMsgToCode (some "No allowance: Price breaks minimum tick size") =
      some ClobErrorCode.INVALID_ORDER_MIN_TICK_SIZE := by
  refine ⟨by decide, by decide, rfl, by decide⟩

theorem truthyStr_isNone_false {o : Option String} (h : truthyStr o = true) :
    o.isNone = false := by
  cases o <;> simp [truthyStr] at h ⊢

/-- The classifier always produces a code on a truthy (present, non-empty)
message: every branch of the cascade, including the fallback, is `some`. -/
theorem mapClobErrorMsgToCode_isSome_of_truthy (m : Option String)
    (h : truthyStr m = true) : (mapClobErrorMsgToCode m).isSome = true := by
  match m with
  | none => simp [truthyStr] at h
  | some s =>
    simp only [truthyStr] at h
    have hs : (s == "") = false := by
      cases hse : s == "" <;> simp [hse] at h ⊢
    simp [mapClobErrorMsgToCode, hs, apply_ite Option.isSome, ite_self]

/-- Claim C5 (counterexample): the raw response `{ success: false }` — a
rejection carrying no error message — is normalized to `success=false` with
NO `errorCode`, contradicting the claim that any failing condition yields a
populated `errorCode`. -/
theorem claim_C5_counterexample :
    (finalizeOrderResult { success := some false }).success = false ∧
    (finalizeOrderResult { success := some false }).errorCode = none :=
  ⟨rfl, rfl⟩

/-- Claim C5 (amended): the submission result is `success=true` exactly when
the raw response signals acceptance AND carries no non-empty error message
AND yields a truthy order identifier; otherwise `success=false`, with
`errorCode` populated exactly when a non-empty error message is present or
the raw response was accepted (the missing-order-id `UNKNOWN` case) — a
rejection with no error message has no `errorCode`. -/
theorem claim_C5_amended (res : RawResponse) :
    ((finalizeOrderResult res).success = true ↔
      (rawSuccessB res = true ∧ truthyStr (jsCoalesce res.errorMsg res.error) = false ∧
        truthyStr (jsCoalesce res.orderID res.orderId) = true)) ∧
    ((finalizeOrderResult res).success = false →
      (((finalizeOrderResult res).errorCode ≠ none) ↔
        (truthyStr (jsCoalesce res.errorMsg res.error) = true ∨ rawSuccessB res = true))) := by
  have hmap := mapClobErrorMsgToCode_isSome_of_truthy (jsCoalesce res.errorMsg res.error)
  cases hraw : rawSuccessB res <;>
  cases hmsg : truthyStr (jsCoalesce res.errorMsg res.error) <;>
  cases hid : truthyStr (jsCoalesce res.orderID res.orderId) <;>
  · simp [finalizeOrderResult, normalizeOrderResponse, hraw, hmsg, hid,
      truthyStr_isNone_false, Option.isSome_iff_ne_none] at hmap ⊢
    try exact hmap

/-- Claim C5 (witness): on the concrete rejected response carrying the
message `"boom"`, the amended theorem yields a populated `errorCode`. -/
theorem claim_C5_witness :
    (finalizeOrderResult { errorMsg := some "boom" }).errorCode ≠ none :=
  ((claim_C5_amended { errorMsg := some "boom" }).2 (by decide)).mpr (Or.inl (by decide))

/-! ## Token metadata resolution: claims C4 and C6 -/

theorem cacheGet_cacheSet_self (c : MetaCache) (k : String) (v : TokenMeta) :
    cacheGet (cacheSet c k v) k = some v := by
  induction c with
  | nil => simp [cacheSet, cacheGet]
  | cons hd tl ih =>
    obtain ⟨k2, v2⟩ := hd
    simp only [cacheSet]
    by_cases h : (k2 == k) = true
    · simp [cacheGet, h]
    · simp only [h, if_false, Bool.false_eq_true]
      simp [cacheGet, h, ih]

/-- A metadata resolution performs either no collaborator call or exactly the
one orderbook lookup for its token. -/
theorem resolveTokenMeta_calls (client : ClobClient) (cache : MetaCache) (now : Int)
    (p : MetaParams) :
    (resolveTokenMeta client cache now p).1 = [] ∨
    (resolveTokenMeta client cache now p).1 = [CollabCall.getOrderBook p.tokenId] := by
  unfold resolveTokenMeta resolveTokenMetaFetch
  cases h : p.mode <;> simp [h]
  split
  · simp
  · split
    · split
      · simp
      · simp
    · simp

/-- A fetch that obtains both fields writes the cache entry stamped `now`. -/
theorem resolveTokenMetaFetch_stores {client : ClobClient} {cache : MetaCache}
    {now : Int} {p : MetaParams} {ob : OrderBook} {t : TickSize} {b : Bool}
    {m : MetaOut} {c2 : MetaCache}
    (hob : client.getOrderBook p.tokenId = .ok ob)
    (ht : ob.tick_size = some t) (hb : ob.neg_risk = some b)
    (hok : (resolveTokenMetaFetch client cache now p).2 = .ok (m, c2)) :
    cacheGet c2 p.tokenId = some { tickSize := t, negRisk := b, fetchedAtMs := now } := by
  unfold resolveTokenMetaFetch at hok
  rw [hob] at hok
  simp only [ht, hb, jsCoalesce] at hok
  simp only [Except.ok.injEq, Prod.mk.injEq] at hok
  obtain ⟨h1, h2⟩ := hok
  rw [← h2]
  exact cacheGet_cacheSet_self cache p.tokenId _

/-- On the fetch path the returned fields are the fetched values with the
overrides only as fallback. -/
theorem resolveTokenMetaFetch_out {client : ClobClient} {cache : MetaCache}
    {now : Int} {p : MetaParams} {ob : OrderBook} {m : MetaOut} {c2 : MetaCache}
    (hob : client.getOrderBook p.tokenId = .ok ob)
    (hok : (resolveTokenMetaFetch client cache now p).2 = .ok (m, c2)) :
    m.tickSize = jsCoalesce ob.tick_size p.tickSizeOverride ∧
    m.negRisk = jsCoalesce ob.neg_risk p.negRiskOverride := by
  unfold resolveTokenMetaFetch at hok
  rw [hob] at hok
  simp only [Except.ok.injEq, Prod.mk.injEq] at hok
  obtain ⟨h1, h2⟩ := hok
  rw [← h1]
  exact ⟨rfl, rfl⟩

/-- A resolution that performed a lookup is exactly the fetch path. -/
theorem resolveTokenMeta_eq_fetch (client : ClobClient) (cache : MetaCache) (now : Int)
    (p : MetaParams) (h : (resolveTokenMeta client cache now p).1 ≠ []) :
    resolveTokenMeta client cache now p = resolveTokenMetaFetch client cache now p := by
  unfold resolveTokenMeta at h ⊢
  cases hm : p.mode <;> simp only [hm] at h ⊢
  case manual => simp at h
  case auto =>
    split at h
    case isTrue => simp at h
    case isFalse hcond =>
      rw [if_neg hcond]
      cases hc : cacheGet cache p.tokenId <;> simp only [hc] at h ⊢
      case some cached =>
        split at h
        case isTrue hfresh => simp at h
        case isFalse hstale => rw [if_neg hstale]

/-- On every no-lookup path (manual mode, overrides sufficient, or fresh cache
hit) the caller-supplied overrides take precedence in the returned result. -/
theorem resolveTokenMeta_no_fetch_out (client : ClobClient) (cache : MetaCache) (now : Int)
    (p : MetaParams) (m : MetaOut) (c2 : MetaCache)
    (hcalls : (resolveTokenMeta client cache now p).1 = [])
    (hok : (resolveTokenMeta client cache now p).2 = .ok (m, c2)) :
    (∀ t0, p.tickSizeOverride = some t0 → m.tickSize = some t0) ∧
    (∀ b0, p.negRiskOverride = some b0 → m.negRisk = some b0) := by
  rcases hrun : resolveTokenMeta client cache now p with ⟨calls, res⟩
  rw [hrun] at hcalls hok
  simp only at hcalls hok
  subst hcalls
  unfold resolveTokenMeta at hrun
  cases hm : p.mode <;> rw [hm] at hrun <;> simp only at hrun
  case manual =>
    injection hrun with hc hr
    rw [← hr] at hok
    simp only [Except.ok.injEq, Prod.mk.injEq] at hok
    obtain ⟨h1, h2⟩ := hok
    subst h1
    constructor <;> intro x hx <;> simpa [overridesOut] using hx
  case auto =>
    split at hrun
    case isTrue hcond =>
      injection hrun with hc hr
      rw [← hr] at hok
      simp only [Except.ok.injEq, Prod.mk.injEq] at hok
      obtain ⟨h1, h2⟩ := hok
      subst h1
      constructor <;> intro x hx <;> simpa [overridesOut] using hx
    case isFalse hcond =>
      split at hrun
      case h_1 cached heq =>
        split at hrun
        case isTrue hfresh =>
          injection hrun with hc hr
          rw [← hr] at hok
          simp only [Except.ok.injEq, Prod.mk.injEq] at hok
          obtain ⟨h1, h2⟩ := hok
          subst h1
          constructor <;> intro x hx <;> simp [jsCoalesce, hx]
        case isFalse hstale =>
          have := congrArg Prod.fst hrun
          simp [resolveTokenMetaFetch] at this
      case h_2 heq =>
        have := congrArg Prod.fst hrun
        simp [resolveTokenMetaFetch] at this

/-- Claim C4 (counterexample): in auto mode with tick-size override `"0.01"`
and a lookup forced by the missing `negRisk`, the returned tick size is the
freshly fetched `"0.1"`, not the override — `ob?.tick_size ?? override` puts
the fetched value first. -/
theorem claim_C4_counterexample :
    (resolveTokenMeta fetchClient [] 0 overrideParams).2 =
      .ok ({ tickSize := some TickSize.tenth, negRisk := some true },
        [("tok", { tickSize := TickSize.tenth, negRisk := true, fetchedAtMs := 0 })]) ∧
    overrideParams.tickSizeOverride = some TickSize.hundredth ∧
    TickSize.tenth ≠ TickSize.hundredth :=
  ⟨rfl, rfl, by decide⟩

/-- Claim C4 (amended): overrides take precedence in the returned result on
every path that performs no lookup (overrides sufficient, or served from the
cache); on the fresh-fetch path the fetched value takes precedence and the
override is only the fallback for a field the lookup omitted. -/
theorem claim_C4_amended (client : ClobClient) (cache : MetaCache) (now : Int)
    (p : MetaParams) (m : MetaOut) (c2 : MetaCache)
    (hok : (resolveTokenMeta client cache now p).2 = .ok (m, c2)) :
    ((resolveTokenMeta client cache now p).1 = [] →
      (∀ t0, p.tickSizeOverride = some t0 → m.tickSize = some t0) ∧
      (∀ b0, p.negRiskOverride = some b0 → m.negRisk = some b0)) ∧
    ((resolveTokenMeta client cache now p).1 ≠ [] →
      ∀ ob, client.getOrderBook p.tokenId = .ok ob →
        m.tickSize = jsCoalesce ob.tick_size p.tickSizeOverride ∧
        m.negRisk = jsCoalesce ob.neg_risk p.negRiskOverride) := by
  constructor
  · intro hcalls
    exact resolveTokenMeta_no_fetch_out client cache now p m c2 hcalls hok
  · intro hcalls ob hob
    rw [resolveTokenMeta_eq_fetch client cache now p hcalls] at hok
    exact resolveTokenMetaFetch_out hob hok

/-- Claim C4 (witness): the amended theorem applied to the concrete
counterexample run — the fetched tick `"0.1"` wins over the override. -/
theorem claim_C4_witness :
    (MetaOut.tickSize { tickSize := some TickSize.tenth, negRisk := some true } =
      jsCoalesce (some TickSize.tenth) overrideParams.tickSizeOverride) ∧
    (MetaOut.negRisk { tickSize := some TickSize.tenth, negRisk := some true } =
      jsCoalesce (some true) overrideParams.negRiskOverride) :=
  (claim_C4_amended fetchClient [] 0 overrideParams
      { tickSize := some TickSize.tenth, negRisk := some true }
      [("tok", { tickSize := TickSize.tenth, negRisk := true, fetchedAtMs := 0 })] rfl).2
    (by decide) { tick_size := some TickSize.tenth, neg_risk := some true } rfl

/-- Claim C6 (counterexample): when the orderbook response omits the risk
flag, no cache entry is written, so two resolutions for the same token at
times 0 and 1 ms — well inside the TTL window — issue two lookups in total,
refuting the at-most-one-lookup-per-window claim. -/
theorem claim_C6_counterexample :
    (resolveTokenMeta partialObClient [] 0 needBothParams).1 =
      [CollabCall.getOrderBook "tok"] ∧
    (resolveTokenMeta partialObClient [] 0 needBothParams).2 =
      .ok ({ tickSize := some TickSize.hundredth, negRisk := none }, []) ∧
    (resolveTokenMeta partialObClient [] 1 needBothParams).1 =
      [CollabCall.getOrderBook "tok"] ∧
    ¬(((resolveTokenMeta partialObClient [] 0 needBothParams).1 ++
        (resolveTokenMeta partialObClient [] 1 needBothParams).1).length ≤ 1) :=
  ⟨rfl, rfl, rfl, by decide⟩

/-- Claim C6 (amended): each resolution performs at most one lookup; a
resolution finding a cache entry within the 60000 ms TTL performs none, so
once a lookup has stored an entry any same-token resolution inside the TTL
adds no further lookup; a resolution finding only an expired entry (and whose
overrides do not already cover its needs, in auto mode) performs exactly one
fresh lookup; and a lookup that obtained both tick size and risk flag
overwrites the cache entry with timestamp `now` — the entry is written only
in that case. -/
theorem claim_C6_amended (client : ClobClient) (cache : MetaCache) (now : Int)
    (p : MetaParams) :
    (resolveTokenMeta client cache now p).1.length ≤ 1 ∧
    (∀ e, cacheGet cache p.tokenId = some e → now - e.fetchedAtMs ≤ metaCacheTTL →
      (resolveTokenMeta client cache now p).1 = []) ∧
    (∀ e, cacheGet cache p.tokenId = some e → metaCacheTTL < now - e.fetchedAtMs →
      p.mode = MetaMode.auto → (hasTickFromOverride p && hasNegFromOverride p) = false →
      (resolveTokenMeta client cache now p).1 = [CollabCall.getOrderBook p.tokenId]) ∧
    (∀ ob t b m c2, client.getOrderBook p.tokenId = .ok ob →
      ob.tick_size = some t → ob.neg_risk = some b →
      (resolveTokenMeta client cache now p).1 ≠ [] →
      (resolveTokenMeta client cache now p).2 = .ok (m, c2) →
      cacheGet c2 p.tokenId = some { tickSize := t, negRisk := b, fetchedAtMs := now }) := by
  refine ⟨?_, ?_, ?_, ?_⟩
  · rcases resolveTokenMeta_calls client cache now p with h | h <;> simp [h]
  · intro e he hfresh
    unfold resolveTokenMeta
    cases hm : p.mode
    · simp only [hm]
      split
      · rfl
      · simp only [he]
        rw [if_pos hfresh]
    · simp only [hm]
  · intro e he hstale hmode hneed
    unfold resolveTokenMeta
    rw [hmode]
    simp only [hneed, Bool.false_eq_true, if_false]
    simp only [he]
    rw [if_neg (by omega)]
    simp [resolveTokenMetaFetch]
  · intro ob t b m c2 hob ht hb hcalls hok
    rw [resolveTokenMeta_eq_fetch client cache now p hcalls] at hok
    exact resolveTokenMetaFetch_stores hob ht hb hok

/-- Claim C6 (witness): the amended theorem applied to concrete runs — a
fresh cache hit at time 5 performs no lookup, an expired entry at time 70001
forces exactly one, and a full lookup stores the entry stamped `now = 0`. -/
theorem claim_C6_witness :
    (resolveTokenMeta stubClient cachedTok 5 needBothParams).1 = [] ∧
    (resolveTokenMeta stubClient cachedTok 70001 needBothParams).1 =
      [CollabCall.getOrderBook "tok"] ∧
    cacheGet [("tok", { tickSize := TickSize.hundredth, negRisk := false, fetchedAtMs := 0 })]
        "tok" =
      some { tickSize := TickSize.hundredth, negRisk := false, fetchedAtMs := 0 } :=
  ⟨(claim_C6_amended stubClient cachedTok 5 needBothParams).2.1
      { tickSize := TickSize.hundredth, negRisk := false, fetchedAtMs := 0 } rfl (by decide),
   (claim_C6_amended stubClient cachedTok 70001 needBothParams).2.2.1
      { tickSize := TickSize.hundredth, negRisk := false, fetchedAtMs := 0 } rfl (by decide)
      rfl (by decide),
   (claim_C6_amended stubClient [] 0 needBothParams).2.2.2
      { tick_size := some TickSize.hundredth, neg_risk := some false }
      TickSize.hundredth false
      { tickSize := some TickSize.hundredth, negRisk := some false }
      [("tok", { tickSize := TickSize.hundredth, negRisk := false, fetchedAtMs := 0 })]
      rfl rfl rfl (by decide) rfl⟩

/-! ## Order submission: claims C2, C3 and C10 -/

/-- Claim C2 (counterexample): a default GTD request without expiration (auto
mode, no negRisk override) triggers the order-book metadata lookup before the
`INVALID_ORDER_EXPIRATION` rejection — the collaborator call count is one,
not zero. -/
theorem claim_C2_counterexample :
    (createLimitOrder stubClient [] 0 gtdReq).calls = [CollabCall.getOrderBook "tok"] ∧
    (createLimitOrder stubClient [] 0 gtdReq).calls ≠ [] ∧
    (createLimitOrder stubClient [] 0 gtdReq).result =
      .ok { success := false, errorCode := some ClobErrorCode.INVALID_ORDER_EXPIRATION
          , errorMsg := some "invalid expiration" } :=
  ⟨rfl, by decide, rfl⟩

/-- Claim C2 (amended): a GTD request without expiration always yields the
`INVALID_ORDER_EXPIRATION` failure whenever a result is returned (only a
metadata-lookup exception can preempt it), and the only collaborator call
that can precede the rejection is the order-book metadata lookup — never
`getPrice` and never order posting. -/
theorem claim_C2_amended (client : ClobClient) (cache : MetaCache) (now : Int)
    (req : CreateLimitOrderRequest)
    (htif : req.timeInForce = some LimitOrderType.GTD)
    (hexp : falsyExpiration req.expirationUnixSeconds = true) :
    (∀ c ∈ (createLimitOrder client cache now req).calls,
      ∃ t, c = CollabCall.getOrderBook t) ∧
    (∀ r, (createLimitOrder client cache now req).result = .ok r →
      r = { success := false, errorCode := some ClobErrorCode.INVALID_ORDER_EXPIRATION
          , errorMsg := some "invalid expiration" }) := by
  rcases hmeta : resolveTokenMeta client cache now (limitMetaParams req) with ⟨mcalls, mres⟩
  have hmc := resolveTokenMeta_calls client cache now (limitMetaParams req)
  rw [hmeta] at hmc
  simp only at hmc
  simp only [createLimitOrder, hmeta]
  cases mres with
  | error e =>
    constructor
    · intro c hc
      simp only at hc
      rcases hmc with h | h <;> rw [h] at hc
      · simp at hc
      · simp at hc
        exact ⟨_, hc⟩
    · intro r hr
      simp at hr
  | ok out =>
    obtain ⟨meta, cache2⟩ := out
    rw [htif]
    simp only [Option.getD_some]
    rw [if_pos (⟨by first | rfl | trivial, hexp⟩ : _ ∧ _)]
    constructor
    · intro c hc
      simp only at hc
      rcases hmc with h | h <;> rw [h] at hc
      · simp at hc
      · simp at hc
        exact ⟨_, hc⟩
    · intro r hr
      simp only [Except.ok.injEq] at hr
      exact hr.symm

/-- Claim C2 (witness): the amended theorem applied to the concrete GTD run
against the stub collaborator. -/
theorem claim_C2_witness :
    (∀ c ∈ (createLimitOrder stubClient [] 0 gtdReq).calls,
      ∃ t, c = CollabCall.getOrderBook t) ∧
    ({ success := false, errorCode := some ClobErrorCode.INVALID_ORDER_EXPIRATION
     , errorMsg := some "invalid expiration" } : CreateOrderResult) =
      { success := false, errorCode := some ClobErrorCode.INVALID_ORDER_EXPIRATION
      , errorMsg := some "invalid expiration" } :=
  ⟨(claim_C2_amended stubClient [] 0 gtdReq rfl rfl).1,
   (claim_C2_amended stubClient [] 0 gtdReq rfl rfl).2 _ rfl⟩

/-- Claim C3 (counterexample): an exception thrown by the order-book metadata
lookup propagates out of both order-submission APIs as a raw exception — it
is not converted into a structured `CreateOrderResult`. -/
theorem claim_C3_counterexample :
    (createLimitOrder throwingClient [] 0 plainLimitReq).result = .error (mkError "boom") ∧
    (createMarketOrder throwingClient [] 0 plainMarketReq).result = .error (mkError "boom") :=
  ⟨rfl, rfl⟩

/-- When the orderbook lookup never throws, metadata resolution never throws. -/
theorem resolveTokenMeta_ok (client : ClobClient) (cache : MetaCache) (now : Int)
    (p : MetaParams) (h : ∀ t, ∃ ob, client.getOrderBook t = .ok ob) :
    ∃ out, (resolveTokenMeta client cache now p).2 = .ok out := by
  obtain ⟨ob, hob⟩ := h p.tokenId
  unfold resolveTokenMeta
  cases hm : p.mode
  case manual => exact ⟨_, rfl⟩
  case auto =>
    simp only
    split
    · exact ⟨_, rfl⟩
    · split
      · split
        · exact ⟨_, rfl⟩
        · simp only [resolveTokenMetaFetch, hob]
          exact ⟨_, rfl⟩
      · simp only [resolveTokenMetaFetch, hob]
        exact ⟨_, rfl⟩

/-- Claim C3 (amended): every failure raised by `getPrice` or by order posting
is caught and converted into a structured result — whenever the order-book
metadata lookup does not throw, both order-submission APIs return a value
(no exception propagates); a metadata-lookup exception, however, propagates
raw (see the counterexample). -/
theorem claim_C3_amended (client : ClobClient) (cache : MetaCache) (now : Int)
    (reqL : CreateLimitOrderRequest) (reqM : CreateMarketOrderRequest)
    (h : ∀ t, ∃ ob, client.getOrderBook t = .ok ob) :
    (∃ r, (createLimitOrder client cache now reqL).result = .ok r) ∧
    (∃ r, (createMarketOrder client cache now reqM).result = .ok r) := by
  constructor
  · rcases hmeta : resolveTokenMeta client cache now (limitMetaParams reqL) with ⟨mcalls, mres⟩
    obtain ⟨out, hout⟩ := resolveTokenMeta_ok client cache now (limitMetaParams reqL) h
    rw [hmeta] at hout
    simp only at hout
    subst hout
    obtain ⟨meta, cache2⟩ := out
    simp only [createLimitOrder, hmeta, submitLimit]
    repeat' split
    all_goals exact ⟨_, rfl⟩
  · rcases hmeta : resolveTokenMeta client cache now (marketMetaParams reqM) with ⟨mcalls, mres⟩
    obtain ⟨out, hout⟩ := resolveTokenMeta_ok client cache now (marketMetaParams reqM) h
    rw [hmeta] at hout
    simp only at hout
    subst hout
    obtain ⟨meta, cache2⟩ := out
    simp only [createMarketOrder, hmeta]
    repeat' split
    all_goals exact ⟨_, rfl⟩

/-- Claim C3 (witness): against a collaborator whose posting methods throw but
whose orderbook lookup succeeds, both APIs return structured results. -/
theorem claim_C3_witness :
    (∃ r, (createLimitOrder stubClient [] 0 plainLimitReq).result = .ok r) ∧
    (∃ r, (createMarketOrder stubClient [] 0 plainMarketReq).result = .ok r) :=
  claim_C3_amended stubClient [] 0 plainLimitReq plainMarketReq (fun _ => ⟨_, rfl⟩)

/-- Claim C10: in `createMarketOrder` with a supplied price and
`tickSizeMode="validate"`, the tick-violation check fires before the amount
check: a request whose price breaks the resolved tick grid and whose required
amount field is missing or non-positive returns
`INVALID_ORDER_MIN_TICK_SIZE`, not `INVALID_ORDER_ERROR`. -/
theorem claim_C10_tick_before_amount (client : ClobClient) (cache : MetaCache) (now : Int)
    (req : CreateMarketOrderRequest) (m : MetaOut) (c2 : MetaCache) (t : TickSize) (p : ℚ)
    (hmode : req.tickSizeMode = some TickSizeMode.validate)
    (hprice : req.price = some p)
    (hmeta : (resolveTokenMeta client cache now (marketMetaParams req)).2 = .ok (m, c2))
    (htick : jsCoalesce m.tickSize req.tickSize = some t)
    (hviol : tickEpsilon < |alignPriceToTick p t (req.tickRounding.getD Rounding.nearest) - p|)
    (_hamount : marketAmountBad req = true) :
    (createMarketOrder client cache now req).result =
      .ok { success := false, errorCode := some ClobErrorCode.INVALID_ORDER_MIN_TICK_SIZE
          , errorMsg := some "Price breaks minimum tick size rules" } := by
  rcases hrun : resolveTokenMeta client cache now (marketMetaParams req) with ⟨mcalls, mres⟩
  rw [hrun] at hmeta
  simp only at hmeta
  subst hmeta
  simp only [createMarketOrder, hrun, hprice, hmode]
  simp only [applyTick, Option.getD_some, htick]
  rw [if_pos (⟨by first | rfl | trivial, hviol⟩ : _ ∧ _)]

/-- Claim C10 (witness): the concrete tick-breaking, amount-less request is
rejected with `INVALID_ORDER_MIN_TICK_SIZE`. -/
theorem claim_C10_witness :
    (createMarketOrder stubClient [] 0 validateMarketReq).result =
      .ok { success := false, errorCode := some ClobErrorCode.INVALID_ORDER_MIN_TICK_SIZE
          , errorMsg := some "Price breaks minimum tick size rules" } :=
  claim_C10_tick_before_amount stubClient [] 0 validateMarketReq
    { tickSize := some TickSize.hundredth, negRisk := some false } [] TickSize.hundredth
    (127/1000) rfl rfl rfl rfl
    (by rw [alignPriceToTick_eq]
        norm_num [jsRound, tickDecimals, tickEpsilon, Int.floor_eq_iff, lt_abs])
    rfl

/-! ## Session bootstrap: claim C9 -/

/-- The credential step only performs derive/create calls. -/
theorem getOrCreate_calls (env : SessionEnv) :
    ∀ c ∈ (getOrCreateUserApiCredentials env).1,
      c = SessionCall.deriveApiKey ∨ c = SessionCall.createApiKey := by
  intro c hc
  unfold getOrCreateUserApiCredentials at hc
  split at hc <;> simp only at hc
  · simp at hc
    tauto
  · split at hc <;> simp at hc <;> tauto

/-- `ensureApprovals` only performs check/execute calls. -/
theorem ensureApprovals_calls (env : SessionEnv) (idx : Nat) :
    ∀ c ∈ (ensureApprovals env idx).1,
      c = SessionCall.checkApprovals ∨ c = SessionCall.executeApprovals := by
  intro c hc
  unfold ensureApprovals at hc
  split at hc <;> simp only at hc <;> split at hc <;> simp at hc <;> tauto

/-- Any call of the post-deployment tail is either inherited or one of the
credential/approval calls — never a deploy. -/
theorem sessionAfterDeploy_calls (env : SessionEnv) (eoa safe : String)
    (steps : List SessionStep) (calls : List SessionCall) :
    ∀ c ∈ (sessionAfterDeploy env eoa safe steps calls).calls,
      c ∈ calls ∨ c = SessionCall.deriveApiKey ∨ c = SessionCall.createApiKey ∨
      c = SessionCall.checkApprovals ∨ c = SessionCall.executeApprovals := by
  intro c hc
  unfold sessionAfterDeploy at hc
  rcases hg : getOrCreateUserApiCredentials env with ⟨cCalls, cres⟩
  rw [hg] at hc
  have hgc := getOrCreate_calls env
  rw [hg] at hgc
  simp only at hgc
  cases cres with
  | error e =>
    simp only at hc
    rcases List.mem_append.mp hc with h | h
    · exact Or.inl h
    · rcases hgc _ h with h2 | h2
      · exact Or.inr (Or.inl h2)
      · exact Or.inr (Or.inr (Or.inl h2))
  | ok creds =>
    simp only at hc
    split at hc
    · rcases List.mem_append.mp hc with h | h
      · rcases List.mem_append.mp h with h3 | h3
        · exact Or.inl h3
        · rcases hgc _ h3 with h2 | h2
          · exact Or.inr (Or.inl h2)
          · exact Or.inr (Or.inr (Or.inl h2))
      · simp at h
        subst h
        exact Or.inr (Or.inr (Or.inr (Or.inl rfl)))
    · rcases he : ensureApprovals env 1 with ⟨eCalls, eres⟩
      rw [he] at hc
      have hec := ensureApprovals_calls env 1
      rw [he] at hec
      simp only at hec
      cases eres with
      | error e =>
        simp only at hc
        rcases List.mem_append.mp hc with h | h
        · rcases List.mem_append.mp h with h3 | h3
          · rcases List.mem_append.mp h3 with h4 | h4
            · exact Or.inl h4
            · rcases hgc _ h4 with h2 | h2
              · exact Or.inr (Or.inl h2)
              · exact Or.inr (Or.inr (Or.inl h2))
          · simp at h3
            subst h3
            exact Or.inr (Or.inr (Or.inr (Or.inl rfl)))
        · rcases hec _ h with h2 | h2
          · exact Or.inr (Or.inr (Or.inr (Or.inl h2)))
          · exact Or.inr (Or.inr (Or.inr (Or.inr h2)))
      | ok out =>
        obtain ⟨didTx, approvals⟩ := out
        simp only at hc
        rcases List.mem_append.mp hc with h | h
        · rcases List.mem_append.mp h with h3 | h3
          · rcases List.mem_append.mp h3 with h4 | h4
            · exact Or.inl h4
            · rcases hgc _ h4 with h2 | h2
              · exact Or.inr (Or.inl h2)
              · exact Or.inr (Or.inr (Or.inl h2))
          · simp at h3
            subst h3
            exact Or.inr (Or.inr (Or.inr (Or.inl rfl)))
        · rcases hec _ h with h2 | h2
          · exact Or.inr (Or.inr (Or.inr (Or.inl h2)))
          · exact Or.inr (Or.inr (Or.inr (Or.inr h2)))

/-- If the initial approval check reports full approval, the tail never
batch-executes approvals. -/
theorem sessionAfterDeploy_no_execute (env : SessionEnv) (eoa safe : String)
    (steps : List SessionStep) (calls : List SessionCall)
    (happ : (env.checkApprovalsResult 0).allApproved = true)
    (hni : SessionCall.executeApprovals ∉ calls) :
    SessionCall.executeApprovals ∉ (sessionAfterDeploy env eoa safe steps calls).calls := by
  intro hmem
  unfold sessionAfterDeploy at hmem
  rcases hg : getOrCreateUserApiCredentials env with ⟨cCalls, cres⟩
  rw [hg] at hmem
  have hgc := getOrCreate_calls env
  rw [hg] at hgc
  simp only at hgc
  cases cres with
  | error e =>
    simp only at hmem
    rcases List.mem_append.mp hmem with h | h
    · exact hni h
    · rcases hgc _ h with h2 | h2 <;> simp at h2
  | ok creds =>
    simp only at hmem
    rw [if_pos happ] at hmem
    rcases List.mem_append.mp hmem with h | h
    · rcases List.mem_append.mp h with h3 | h3
      · exact hni h3
      · rcases hgc _ h3 with h2 | h2 <;> simp at h2
    · simp at h

/-- Claim C9: during session bootstrap, a wallet that already has deployed
bytecode never triggers the underlying deploy call; a fully approved initial
check never triggers the approvals batch-execute call; and a non-deployed
wallet with auto-deploy disabled fails fatally with the thrown error
`"Safe is not deployed"`. -/
theorem claim_C9_bootstrap (env : SessionEnv) (eoa : String) (autoDeploy : Bool) :
    (env.isSafeDeployedResult = .ok true →
      SessionCall.deploy ∉ (initializeTradingSession env eoa autoDeploy).calls) ∧
    ((env.checkApprovalsResult 0).allApproved = true →
      SessionCall.executeApprovals ∉ (initializeTradingSession env eoa autoDeploy).calls) ∧
    (env.isSafeDeployedResult = .ok false → autoDeploy = false →
      (initializeTradingSession env eoa autoDeploy).result =
        .error (mkError "Safe is not deployed")) := by
  refine ⟨?_, ?_, ?_⟩
  · intro hdep
    unfold initializeTradingSession
    rw [hdep]
    simp only [if_true]
    intro hmem
    rcases sessionAfterDeploy_calls env eoa env.derivedSafeAddress _ _ _ hmem with
      h | h | h | h | h
    · simp at h
    · simp at h
    · simp at h
    · simp at h
    · simp at h
  · intro happ
    unfold initializeTradingSession
    cases hdep : env.isSafeDeployedResult with
    | error e => simp
    | ok deployed =>
      simp only
      cases deployed
      · simp only [Bool.false_eq_true, if_false]
        cases autoDeploy
        · simp
        · simp only [Bool.not_true, Bool.false_eq_true, if_false]
          cases hds : deploySafe env with
          | error e => simp
          | ok addr =>
            simp only
            exact sessionAfterDeploy_no_execute env eoa env.derivedSafeAddress _ _ happ
              (by simp)
      · simp only [if_true]
        exact sessionAfterDeploy_no_execute env eoa env.derivedSafeAddress _ _ happ (by simp)
  · intro hdep hauto
    unfold initializeTradingSession
    rw [hdep, hauto]
    simp

/-- Claim C9 (witness): the bootstrap theorem applied to concrete
environments — no deploy when deployed, no batch-execute when approved, and
the fatal error when not deployed with auto-deploy disabled. -/
theorem claim_C9_witness :
    SessionCall.deploy ∉ (initializeTradingSession sessionEnvDeployed "eoa" true).calls ∧
    SessionCall.executeApprovals ∉
      (initializeTradingSession sessionEnvDeployed "eoa" true).calls ∧
    (initializeTradingSession sessionEnvNotDeployed "eoa" false).result =
      .error (mkError "Safe is not deployed") :=
  ⟨(claim_C9_bootstrap sessionEnvDeployed "eoa" true).1 rfl,
   (claim_C9_bootstrap sessionEnvDeployed "eoa" true).2.1 rfl,
   (claim_C9_bootstrap sessionEnvNotDeployed "eoa" false).2.2 rfl rfl⟩

end PolyCore
